import Mathlib

/-!
Shallow embedding of the orbital state and proximity-detection engine of
`satelite.py`: satellite generation, per-tick azimuth advance with position
recomputation, pairwise collision detection, and the figure-building
callback's effect on the shared population.  Angles and positions are modelled
in exact real arithmetic; the Python float modulo `x % y` (result in `[0, y)`
for `y > 0`) is modelled as `x - y * ⌊x / y⌋`; the random draws of
`random.uniform` are modelled as explicit parameter streams of degree values.
-/

namespace SatTrack

/-- Constant `EARTH_RADIUS = 6371` (km). -/
def EARTH_RADIUS : ℝ := 6371

/-- Constant `NUM_LEO = 50`. -/
def NUM_LEO : ℤ := 50

/-- Constant `NUM_GEO = 50`. -/
def NUM_GEO : ℤ := 50

/-- Constant `LEO_ALTITUDE = 2000` (km). -/
def LEO_ALTITUDE : ℝ := 2000

/-- Constant `GEO_ALTITUDE = 35786` (km). -/
def GEO_ALTITUDE : ℝ := 35786

/-- Constant `INITIAL_THRESHOLD = 100` (km). -/
def INITIAL_THRESHOLD : ℝ := 100

/-- `np.radians`: degrees to radians. -/
noncomputable def radians (d : ℝ) : ℝ := d * (Real.pi / 180)

/-- Python float modulo for real arguments: `x % y = x - y * floor (x / y)`;
for `y > 0` the result lies in `[0, y)`. -/
noncomputable def fmod (x y : ℝ) : ℝ := x - y * (⌊x / y⌋ : ℤ)

/-- One satellite record, mirroring the dict built in `generate_satellites`:
stable id, class tag, spherical angles `theta` (polar) and `phi` (azimuth),
radius `r`, and the cached Cartesian position `(x, y, z)`. -/
@[ext]
structure Satellite where
  id : String
  type : String
  theta : ℝ
  phi : ℝ
  r : ℝ
  x : ℝ
  y : ℝ
  z : ℝ

instance : Inhabited Satellite := ⟨⟨"", "", 0, 0, 0, 0, 0, 0⟩⟩

/-- The satellite built in iteration `i` (0-based) of `generate_satellites`,
from the degree draws `(theta_deg, phi_deg)` of `random.uniform(0, 180)` and
`random.uniform(0, 360)`. -/
noncomputable def mkSat (label : String) (i : ℕ) (altitude : ℝ) (draw : ℝ × ℝ) : Satellite :=
  let theta := radians draw.1
  let phi := radians draw.2
  let r := EARTH_RADIUS + altitude
  { id := label ++ ("_") ++ toString (i + 1)
    type := label
    theta := theta
    phi := phi
    r := r
    x := r * Real.sin theta * Real.cos phi
    y := r * Real.sin theta * Real.sin phi
    z := r * Real.cos theta }

/-- `generate_satellites(num, altitude, label_prefix)`: one satellite per
iteration of `for i in range(num)` (empty when `num ≤ 0`), with the random
draws supplied as a stream of `(theta_deg, phi_deg)` pairs. -/
noncomputable def generate_satellites (num : ℤ) (altitude : ℝ) (label : String)
    (draws : ℕ → ℝ × ℝ) : List Satellite :=
  (List.range num.toNat).map fun i => mkSat label i altitude (draws i)

/-- The update of one satellite inside `update_positions`: wrap the azimuth by
`2π`, then recompute the Cartesian position from the angles. -/
noncomputable def update_sat (dphi : ℝ) (s : Satellite) : Satellite :=
  let phi := fmod (s.phi + dphi) (2 * Real.pi)
  { s with
    phi := phi
    x := s.r * Real.sin s.theta * Real.cos phi
    y := s.r * Real.sin s.theta * Real.sin phi
    z := s.r * Real.cos s.theta }

/-- `update_positions(sats, dphi)`: every satellite of the population is
updated in place; modelled as returning the new population. -/
noncomputable def update_positions (sats : List Satellite) (dphi : ℝ) : List Satellite :=
  sats.map (update_sat dphi)

/-- `np.linalg.norm((a.x-b.x, a.y-b.y, a.z-b.z))`: Euclidean distance between
the cached positions of two satellites. -/
noncomputable def sat_dist (a b : Satellite) : ℝ :=
  Real.sqrt ((a.x - b.x) ^ 2 + (a.y - b.y) ^ 2 + (a.z - b.z) ^ 2)

/-- `detect_collisions(sats, threshold)`: the nested loops
`for i in range(len(sats)): for j in range(i+1, len(sats))` append the index
pair `(i, j)` exactly when the distance is strictly below the threshold. -/
noncomputable def detect_collisions (sats : List Satellite) (threshold : ℝ) : List (ℕ × ℕ) :=
  (List.range sats.length).flatMap fun i =>
    ((List.range' (i + 1) (sats.length - (i + 1))).filter fun j =>
      decide (sat_dist (sats.getD i default) (sats.getD j default) < threshold)).map
      fun j => (i, j)

/-- The data-model invariant that the cached position is the one derived from
`(r, theta, phi)` by the spherical-to-Cartesian conversion. -/
def Consistent (s : Satellite) : Prop :=
  s.x = s.r * Real.sin s.theta * Real.cos s.phi ∧
  s.y = s.r * Real.sin s.theta * Real.sin s.phi ∧
  s.z = s.r * Real.cos s.theta

/-- A satellite as it occurs in a reachable population: azimuth wrapped into
`[0, 2π)` and position derived from the angles. -/
def WellFormed (s : Satellite) : Prop :=
  Consistent s ∧ 0 ≤ s.phi ∧ s.phi < 2 * Real.pi

theorem fmod_nonneg (x y : ℝ) (hy : 0 < y) : 0 ≤ fmod x y := by
  unfold fmod
  have h : (⌊x / y⌋ : ℝ) ≤ x / y := Int.floor_le (x / y)
  have h2 : y * (⌊x / y⌋ : ℝ) ≤ y * (x / y) := by
    exact mul_le_mul_of_nonneg_left h hy.le
  rw [mul_div_cancel₀ x hy.ne.symm] at h2
  linarith

theorem fmod_lt (x y : ℝ) (hy : 0 < y) : fmod x y < y := by
  unfold fmod
  have h : x / y < (⌊x / y⌋ : ℝ) + 1 := Int.lt_floor_add_one (x / y)
  have h2 : x < ((⌊x / y⌋ : ℝ) + 1) * y := (div_lt_iff₀ hy).mp h
  nlinarith

theorem fmod_eq_self (x y : ℝ) (hx : 0 ≤ x) (hxy : x < y) : fmod x y = x := by
  have hy : 0 < y := lt_of_le_of_lt hx hxy
  have hfloor : ⌊x / y⌋ = 0 := by
    rw [Int.floor_eq_zero_iff]
    constructor
    · exact div_nonneg hx hy.le
    · exact (div_lt_one hy).mpr hxy
  unfold fmod
  rw [hfloor]
  push_cast
  ring

theorem fmod_add_right (x y : ℝ) (hx : 0 ≤ x) (hxy : x < y) : fmod (x + y) y = x := by
  have hy : 0 < y := lt_of_le_of_lt hx hxy
  have hdiv : (x + y) / y = x / y + 1 := by
    field_simp
  have hfloor0 : ⌊x / y⌋ = 0 := by
    rw [Int.floor_eq_zero_iff]
    constructor
    · exact div_nonneg hx hy.le
    · exact (div_lt_one hy).mpr hxy
  have hfloor : ⌊(x + y) / y⌋ = 1 := by
    rw [hdiv]
    rw [Int.floor_add_one, hfloor0]
    omega
  unfold fmod
  rw [hfloor]
  push_cast
  ring

theorem mem_detect_iff (sats : List Satellite) (t : ℝ) (i j : ℕ) :
    (i, j) ∈ detect_collisions sats t ↔
      i < j ∧ j < sats.length ∧ sat_dist (sats.getD i default) (sats.getD j default) < t := by
  unfold detect_collisions
  simp only [List.mem_flatMap, List.mem_map, List.mem_filter, List.mem_range,
    decide_eq_true_eq, Prod.mk.injEq]
  constructor
  · rintro ⟨a, ha, b, ⟨hb, hd⟩, hab, hbj⟩
    subst hab
    subst hbj
    have hb' := List.mem_range'_1.mp hb
    refine ⟨by omega, by omega, hd⟩
  · rintro ⟨hij, hjlen, hd⟩
    refine ⟨i, by omega, j, ⟨?_, hd⟩, rfl, rfl⟩
    rw [List.mem_range'_1]
    omega

theorem detect_nodup (sats : List Satellite) (t : ℝ) : (detect_collisions sats t).Nodup := by
  unfold detect_collisions
  rw [List.nodup_flatMap]
  constructor
  · intro i hi
    apply List.Nodup.map
    · intro a b hab
      exact (Prod.mk.injEq i a i b).mp hab |>.2
    · exact List.Nodup.filter _ (List.nodup_range' _ _)
  · refine List.Pairwise.imp ?_ (List.nodup_range sats.length)
    intro a b hne
    intro p hpa hpb
    obtain ⟨ja, _, hja⟩ := List.mem_map.mp hpa
    obtain ⟨jb, _, hjb⟩ := List.mem_map.mp hpb
    apply hne
    have h := hja.trans hjb.symm
    exact (Prod.mk.injEq a ja b jb).mp h |>.1

theorem sat_dist_nonneg (a b : Satellite) : 0 ≤ sat_dist a b :=
  Real.sqrt_nonneg _

/-- A concrete satellite used to instantiate hypotheses: the satellite built
by `generate_satellites` from draw `(0, 0)` at altitude `0`. -/
noncomputable def demoSat : Satellite := mkSat ("LEO") 0 0 (0, 0)

/-- Claim C1: for every population and threshold, `detect_collisions` returns
exactly the index pairs `(i, j)` with `i < j` over population indices whose
Euclidean distance is strictly below the threshold — a pair exactly at the
threshold is not reported — and each unordered pair appears at most once. -/
theorem C1_detect_exact_pairs (sats : List Satellite) (t : ℝ) :
    (∀ i j : ℕ, (i, j) ∈ detect_collisions sats t ↔
      i < j ∧ j < sats.length ∧ sat_dist (sats.getD i default) (sats.getD j default) < t) ∧
    (detect_collisions sats t).Nodup :=
  ⟨fun i j => mem_detect_iff sats t i j, detect_nodup sats t⟩

/-- Claim C3: `detect_collisions` with any threshold `t ≤ 0` returns the empty
set, and a negative threshold gives exactly the same result as threshold zero
(so it is absorbed, not an error). -/
theorem C3_nonpositive_threshold (sats : List Satellite) (t : ℝ) (ht : t ≤ 0) :
    detect_collisions sats t = [] ∧
    detect_collisions sats t = detect_collisions sats 0 := by
  have hempty : ∀ u : ℝ, u ≤ 0 → detect_collisions sats u = [] := by
    intro u hu
    rw [List.eq_nil_iff_forall_not_mem]
    intro p hp
    obtain ⟨i, j⟩ := p
    obtain ⟨_, _, hd⟩ := (mem_detect_iff sats u i j).mp hp
    have h0 := sat_dist_nonneg (sats.getD i default) (sats.getD j default)
    linarith
  exact ⟨hempty t ht, (hempty t ht).trans (hempty 0 le_rfl).symm⟩

/-- Claim C3 witness at a concrete population and threshold `-5`. -/
theorem C3_witness :
    detect_collisions [demoSat, demoSat] (-5) = [] ∧
    detect_collisions [demoSat, demoSat] (-5) = detect_collisions [demoSat, demoSat] 0 :=
  C3_nonpositive_threshold [demoSat, demoSat] (-5) (by norm_num)

/-- Claim C4: `detect_collisions` is monotonic in the threshold — for a fixed
population, every pair reported at threshold `t1 < t2` is also reported at
`t2`. -/
theorem C4_detect_monotone (sats : List Satellite) (t1 t2 : ℝ) (h : t1 < t2) :
    detect_collisions sats t1 ⊆ detect_collisions sats t2 := by
  intro p hp
  obtain ⟨i, j⟩ := p
  rw [mem_detect_iff] at hp ⊢
  exact ⟨hp.1, hp.2.1, lt_trans hp.2.2 h⟩

/-- Claim C4 witness at a concrete population and thresholds `0 < 1`. -/
theorem C4_witness :
    detect_collisions [demoSat, demoSat] 0 ⊆ detect_collisions [demoSat, demoSat] 1 :=
  C4_detect_monotone [demoSat, demoSat] 0 1 (by norm_num)

theorem consistent_mkSat (label : String) (i : ℕ) (alt : ℝ) (d : ℝ × ℝ) :
    Consistent (mkSat label i alt d) := ⟨rfl, rfl, rfl⟩

theorem consistent_update_sat (dphi : ℝ) (s : Satellite) :
    Consistent (update_sat dphi s) := ⟨rfl, rfl, rfl⟩

theorem update_sat_phi (dphi : ℝ) (s : Satellite) :
    (update_sat dphi s).phi = fmod (s.phi + dphi) (2 * Real.pi) := rfl

/-- If the wrapped azimuth comes back to the stored one and the stored
position is the derived one, the per-satellite update is the identity. -/
theorem update_sat_id (dphi : ℝ) (s : Satellite) (hc : Consistent s)
    (hphi : fmod (s.phi + dphi) (2 * Real.pi) = s.phi) : update_sat dphi s = s := by
  obtain ⟨hx, hy, hz⟩ := hc
  unfold update_sat
  ext
  · rfl
  · rfl
  · rfl
  · exact hphi
  · rfl
  · show s.r * Real.sin s.theta * Real.cos (fmod (s.phi + dphi) (2 * Real.pi)) = s.x
    rw [hphi]
    exact hx.symm
  · show s.r * Real.sin s.theta * Real.sin (fmod (s.phi + dphi) (2 * Real.pi)) = s.y
    rw [hphi]
    exact hy.symm
  · exact hz.symm

/-- Claim C2: `update_positions` updates every satellite of the population,
setting the azimuth to `(phi + dphi) mod 2π` and recomputing the Cartesian
position from `(r, theta, new phi)` by the spherical conversion; with
`dphi = 0` it leaves a well-formed satellite entirely unchanged. -/
theorem C2_advance (dphi : ℝ) (s : Satellite) (sats : List Satellite) :
    update_positions sats dphi = sats.map (update_sat dphi) ∧
    (update_sat dphi s).phi = fmod (s.phi + dphi) (2 * Real.pi) ∧
    (update_sat dphi s).x = s.r * Real.sin s.theta * Real.cos ((update_sat dphi s).phi) ∧
    (update_sat dphi s).y = s.r * Real.sin s.theta * Real.sin ((update_sat dphi s).phi) ∧
    (update_sat dphi s).z = s.r * Real.cos s.theta ∧
    (WellFormed s → update_sat 0 s = s) := by
  refine ⟨rfl, rfl, rfl, rfl, rfl, ?_⟩
  rintro ⟨hc, hphi0, hphi2⟩
  apply update_sat_id 0 s hc
  rw [add_zero]
  exact fmod_eq_self _ _ hphi0 hphi2

theorem demoSat_phi : demoSat.phi = 0 := by
  show radians 0 = 0
  unfold radians
  ring

/-- Claim C2 witness: the zero advance at the concrete satellite `demoSat`. -/
theorem C2_witness : update_sat 0 demoSat = demoSat := by
  apply (C2_advance 0 demoSat []).2.2.2.2.2
  refine ⟨consistent_mkSat _ _ _ _, ?_, ?_⟩
  · rw [demoSat_phi]
  · rw [demoSat_phi]
    exact Real.two_pi_pos

/-- Claim C6: any number of `update_positions` calls (with arbitrary steps)
leaves every satellite's `id`, class tag, polar angle and radius unchanged. -/
theorem C6_frame (sats : List Satellite) (dphis : List ℝ) :
    ((dphis.foldl update_positions sats).map fun s => (s.id, s.type, s.theta, s.r)) =
      sats.map fun s => (s.id, s.type, s.theta, s.r) := by
  induction dphis generalizing sats with
  | nil => rfl
  | cons d ds ih =>
      rw [List.foldl_cons, ih]
      unfold update_positions
      rw [List.map_map]
      rfl

/-- Claim C7: the azimuth is in `[0, 2π)` at creation (given that the degree
draws of `random.uniform(0, 360)` lie in `[0, 360)`) and is wrapped back into
`[0, 2π)` by every advance, for any satellite and any step. -/
theorem C7_azimuth_range (num : ℤ) (alt : ℝ) (label : String) (draws : ℕ → ℝ × ℝ)
    (h : ∀ i : ℕ, 0 ≤ (draws i).2 ∧ (draws i).2 < 360) :
    (∀ s ∈ generate_satellites num alt label draws, 0 ≤ s.phi ∧ s.phi < 2 * Real.pi) ∧
    (∀ (dphi : ℝ) (s : Satellite),
      0 ≤ (update_sat dphi s).phi ∧ (update_sat dphi s).phi < 2 * Real.pi) := by
  constructor
  · intro s hs
    obtain ⟨i, hi, rfl⟩ := List.mem_map.mp hs
    obtain ⟨h0, h360⟩ := h i
    constructor
    · show 0 ≤ radians (draws i).2
      unfold radians
      have hpi : (0:ℝ) ≤ Real.pi / 180 := by positivity
      exact mul_nonneg h0 hpi
    · show radians (draws i).2 < 2 * Real.pi
      unfold radians
      have hpi : (0:ℝ) < Real.pi / 180 := by positivity
      have hlt := mul_lt_mul_of_pos_right h360 hpi
      have h2 : (360:ℝ) * (Real.pi / 180) = 2 * Real.pi := by ring
      linarith
  · intro dphi s
    rw [update_sat_phi]
    exact ⟨fmod_nonneg _ _ Real.two_pi_pos, fmod_lt _ _ Real.two_pi_pos⟩

/-- Claim C7 witness: concrete draws `(0, 0)` and a concrete advance. -/
theorem C7_witness :
    0 ≤ (update_sat 1 demoSat).phi ∧ (update_sat 1 demoSat).phi < 2 * Real.pi :=
  (C7_azimuth_range 1 0 ("LEO") (fun _ => (0, 0))
    (fun _ => ⟨le_rfl, by norm_num⟩)).2 1 demoSat

/-- A consistent cached position has Euclidean norm equal to the radius. -/
theorem norm_eq_radius (s : Satellite) (hc : Consistent s) (hr : 0 ≤ s.r) :
    Real.sqrt (s.x ^ 2 + s.y ^ 2 + s.z ^ 2) = s.r := by
  obtain ⟨hx, hy, hz⟩ := hc
  have h1 : Real.cos s.phi ^ 2 + Real.sin s.phi ^ 2 = 1 := Real.cos_sq_add_sin_sq s.phi
  have h2 : Real.sin s.theta ^ 2 + Real.cos s.theta ^ 2 = 1 := Real.sin_sq_add_cos_sq s.theta
  have hsum : s.x ^ 2 + s.y ^ 2 + s.z ^ 2 = s.r ^ 2 := by
    rw [hx, hy, hz]
    linear_combination (s.r ^ 2 * Real.sin s.theta ^ 2) * h1 + s.r ^ 2 * h2
  rw [hsum]
  exact Real.sqrt_sq hr

/-- Consistency of the cached position and the radius value survive any
sequence of `update_positions` calls. -/
theorem foldl_consistent (dphis : List ℝ) (sats : List Satellite)
    (h : ∀ s ∈ sats, Consistent s ∧ 0 ≤ s.r) :
    ∀ s ∈ dphis.foldl update_positions sats, Consistent s ∧ 0 ≤ s.r := by
  induction dphis generalizing sats with
  | nil => exact h
  | cons d ds ih =>
      rw [List.foldl_cons]
      apply ih
      intro s hs
      obtain ⟨u, hu, rfl⟩ := List.mem_map.mp hs
      refine ⟨consistent_update_sat d u, ?_⟩
      show 0 ≤ u.r
      exact (h u hu).2

/-- Claim C5: every satellite produced by `generate_satellites` (with a
nonnegative altitude) and then advanced by any sequence of
`update_positions` steps has position of Euclidean norm exactly its radius:
it always lies on its assigned shell. -/
theorem C5_on_shell (num : ℤ) (alt : ℝ) (label : String) (draws : ℕ → ℝ × ℝ)
    (dphis : List ℝ) (halt : 0 ≤ alt) :
    ∀ s ∈ dphis.foldl update_positions (generate_satellites num alt label draws),
      Real.sqrt (s.x ^ 2 + s.y ^ 2 + s.z ^ 2) = s.r := by
  intro s hs
  have h0 : ∀ u ∈ generate_satellites num alt label draws, Consistent u ∧ 0 ≤ u.r := by
    intro u hu
    obtain ⟨i, hi, rfl⟩ := List.mem_map.mp hu
    refine ⟨consistent_mkSat _ _ _ _, ?_⟩
    show 0 ≤ EARTH_RADIUS + alt
    unfold EARTH_RADIUS
    linarith
  obtain ⟨hc, hr⟩ := foldl_consistent dphis _ h0 s hs
  exact norm_eq_radius s hc hr

/-- Claim C5 witness: the freshly generated `demoSat` lies on its shell. -/
theorem C5_witness :
    Real.sqrt (demoSat.x ^ 2 + demoSat.y ^ 2 + demoSat.z ^ 2) = demoSat.r := by
  apply C5_on_shell 1 0 ("LEO") (fun _ => (0, 0)) [] le_rfl
  rw [List.foldl_nil]
  show demoSat ∈ [demoSat]
  exact List.mem_singleton_self demoSat

/-- Claim C8: on a population whose satellites have azimuth in `[0, 2π)` and
the derived (consistent) cached position, advancing by a full revolution `2π`
is the identity: every azimuth and every position is restored exactly. -/
theorem C8_full_revolution (sats : List Satellite)
    (h : ∀ s ∈ sats, 0 ≤ s.phi ∧ s.phi < 2 * Real.pi ∧ Consistent s) :
    update_positions sats (2 * Real.pi) = sats := by
  induction sats with
  | nil => rfl
  | cons a l ih =>
      have ha := h a (List.mem_cons_self a l)
      have step : update_positions (a :: l) (2 * Real.pi) =
          update_sat (2 * Real.pi) a :: update_positions l (2 * Real.pi) := rfl
      rw [step, ih (fun s hs => h s (List.mem_cons_of_mem a hs)),
        update_sat_id _ _ ha.2.2 (fmod_add_right _ _ ha.1 ha.2.1)]

/-- Claim C8 witness: a full revolution on the concrete population
`[demoSat]`. -/
theorem C8_witness : update_positions [demoSat] (2 * Real.pi) = [demoSat] := by
  apply C8_full_revolution
  intro s hs
  rw [List.mem_singleton] at hs
  subst hs
  refine ⟨?_, ?_, consistent_mkSat _ _ _ _⟩
  · rw [demoSat_phi]
  · rw [demoSat_phi]
    exact Real.two_pi_pos

/-- Claim C9 counterexample: initialization never raises — with a negative
count and a non-positive altitude `generate_satellites` returns the empty
list normally, and with count `2` and altitude `-5` (non-positive, which the
claim says must be rejected) it returns an ordinary two-element population. -/
theorem C9_counterexample :
    generate_satellites (-3) (-5) ("LEO") (fun _ => (0, 0)) = [] ∧
    (generate_satellites 2 (-5) ("LEO") (fun _ => (0, 0))).length = 2 :=
  ⟨rfl, rfl⟩

/-- Claim C9 amended: `generate_satellites` performs no validation and has no
error path: it is a total function returning `max count 0` satellites for any
altitude (each at radius `EARTH_RADIUS + altitude`), and any non-positive
count — in particular count `0` — yields the empty sequence. -/
theorem C9_no_validation (num : ℤ) (alt : ℝ) (label : String) (draws : ℕ → ℝ × ℝ) :
    (generate_satellites num alt label draws).length = num.toNat ∧
    (num ≤ 0 → generate_satellites num alt label draws = []) ∧
    ∀ s ∈ generate_satellites num alt label draws, s.r = EARTH_RADIUS + alt := by
  refine ⟨?_, ?_, ?_⟩
  · unfold generate_satellites
    rw [List.length_map, List.length_range]
  · intro hnum
    unfold generate_satellites
    rw [Int.toNat_of_nonpos hnum]
    rfl
  · intro s hs
    obtain ⟨i, hi, rfl⟩ := List.mem_map.mp hs
    rfl

/-- Claim C9 witness: count `0` yields the empty sequence. -/
theorem C9_witness : generate_satellites 0 2000 ("LEO") (fun _ => (0, 0)) = [] :=
  (C9_no_validation 0 2000 ("LEO") (fun _ => (0, 0))).2.1 le_rfl

/-- `leo_sats`: the LEO population generated at startup, with the random
draws supplied as a stream. -/
noncomputable def leo_sats (draws : ℕ → ℝ × ℝ) : List Satellite :=
  generate_satellites NUM_LEO LEO_ALTITUDE ("LEO") draws

/-- `geo_sats`: the GEO population generated at startup. -/
noncomputable def geo_sats (draws : ℕ → ℝ × ℝ) : List Satellite :=
  generate_satellites NUM_GEO GEO_ALTITUDE ("GEO") draws

/-- `all_sats = leo_sats + geo_sats`: the shared global population. -/
noncomputable def all_sats (ld gd : ℕ → ℝ × ℝ) : List Satellite :=
  leo_sats ld ++ geo_sats gd

/-- One rendered figure, abstracted to the data the code places in it: the
two scatter traces, the collision line segments, the optional highlighted
point and the optional camera eye. -/
structure Figure where
  leoTrace : List (ℝ × ℝ × ℝ)
  geoTrace : List (ℝ × ℝ × ℝ)
  collisionSegs : List ((ℝ × ℝ × ℝ) × (ℝ × ℝ × ℝ))
  highlight : Option (ℝ × ℝ × ℝ)
  camera : Option (ℝ × ℝ × ℝ)

/-- The info text under the graph: either the default prompt or the clicked
satellite's id, class tag and altitude. -/
inductive Info where
  | defaultMsg : Info
  | satInfo (id : String) (type : String) (altitude : ℝ) : Info

/-- `make_figure(threshold, clickData, preset)`: first mutates the shared
population by `update_positions(all_sats, np.radians(0.5))`, then builds the
traces, the collision links from `detect_collisions`, and the click/preset
camera handling.  The global population is passed and returned explicitly;
`clickData` is abstracted to the clicked satellite id it carries. -/
noncomputable def make_figure (threshold : ℝ) (clickData : Option String) (preset : String)
    (pop : List Satellite) : Figure × Info × List Satellite :=
  let sats := update_positions pop (radians 0.5)
  let leo := sats.filter fun s => s.type == ("LEO")
  let geo := sats.filter fun s => s.type == ("GEO")
  let links := detect_collisions sats threshold
  let base : Figure :=
    { leoTrace := leo.map fun s => (s.x, s.y, s.z)
      geoTrace := geo.map fun s => (s.x, s.y, s.z)
      collisionSegs := links.map fun p =>
        (((sats.getD p.1 default).x, (sats.getD p.1 default).y, (sats.getD p.1 default).z),
         ((sats.getD p.2 default).x, (sats.getD p.2 default).y, (sats.getD p.2 default).z))
      highlight := none
      camera := none }
  match clickData with
  | some pid =>
      match sats.find? fun s => s.id == pid with
      | some sat =>
          ({ base with
              highlight := some (sat.x, sat.y, sat.z)
              camera := some (sat.x / sat.r * 3, sat.y / sat.r * 3, sat.z / sat.r * 3) },
            Info.satInfo sat.id sat.type (sat.r - EARTH_RADIUS), sats)
      | none => (base, Info.defaultMsg, sats)
  | none =>
      if preset == ("default") then (base, Info.defaultMsg, sats)
      else
        if preset == ("top") then
          ({ base with camera := some (0, 0, 3 * (EARTH_RADIUS + GEO_ALTITUDE)) },
            Info.defaultMsg, sats)
        else if preset == ("equatorial") then
          ({ base with camera := some (3 * (EARTH_RADIUS + GEO_ALTITUDE), 0, 0) },
            Info.defaultMsg, sats)
        else if preset == ("side") then
          ({ base with camera := some (0, 3 * (EARTH_RADIUS + GEO_ALTITUDE), 0) },
            Info.defaultMsg, sats)
        else (base, Info.defaultMsg, sats)

/-- The Dash callback `update_graph(n_intervals, clickData, threshold,
preset)`: whatever input fired it, it simply delegates to `make_figure`. -/
noncomputable def update_graph (_n_intervals : ℕ) (clickData : Option String) (threshold : ℝ)
    (preset : String) (pop : List Satellite) : Figure × Info × List Satellite :=
  make_figure threshold clickData preset pop

theorem make_figure_state (threshold : ℝ) (c : Option String) (preset : String)
    (pop : List Satellite) :
    (make_figure threshold c preset pop).2.2 = update_positions pop (radians 0.5) := by
  unfold make_figure
  cases c with
  | none =>
      repeat' split
      all_goals try rfl
      all_goals simp_all
  | some pid =>
      cases hf : (update_positions pop (radians 0.5)).find? fun s => s.id == pid with
      | none => simp only [hf]
      | some sat => simp only [hf]

/-- Claim C10: every invocation of `make_figure` — for any threshold, click
data and camera preset, so in particular those of `update_graph` fired by a
threshold change, a click or a preset change, not only by the timer —
returns a population in which every satellite's azimuth was advanced by
exactly `np.radians(0.5)` (wrapped by `2π`); `update_graph` delegates to
`make_figure` unchanged for every `n_intervals`, so no invocation leaves the
shared population untouched. -/
theorem C10_always_advances (threshold : ℝ) (clickData : Option String) (preset : String)
    (n_intervals : ℕ) (pop : List Satellite) :
    (make_figure threshold clickData preset pop).2.2 = update_positions pop (radians 0.5) ∧
    update_graph n_intervals clickData threshold preset pop =
      make_figure threshold clickData preset pop ∧
    ((make_figure threshold clickData preset pop).2.2.map Satellite.phi =
      pop.map fun s => fmod (s.phi + radians 0.5) (2 * Real.pi)) := by
  refine ⟨make_figure_state threshold clickData preset pop, rfl, ?_⟩
  rw [make_figure_state threshold clickData preset pop]
  unfold update_positions
  rw [List.map_map]
  rfl

end SatTrack
